import Mathlib

/-!
Shallow embedding of the web application (src/main.rs, src/auth.rs,
src/users.rs, src/errors.rs, src/utils.rs) in Lean 4, together with
theorems settling the claims about its specification.

Modelling conventions:
- Rust strings are modelled as lists of characters; the Rust method
  String::len returns the UTF-8 byte length, modelled by utf8Len below.
- The 128-bit session token (a Rust u128) is modelled as a natural
  number together with explicit reduction modulo 2^128 where relevant.
- Database tables are lists of rows; SQL fetch_optional queries are
  modelled by List.find? (the unique-key constraints of the schema make
  the first match the only match).
- A Rust panic (unwrap on a failing value, the panic in the
  From instance for PermissionLevel) is modelled as the error branch of
  Except or as Option.none, as noted at each definition.
- The external pbkdf2 hashing library is abstracted by explicit function
  parameters (hashPw, parseHash, verify): the claims under study never
  depend on the concrete hash, only on the control flow around it.
-/

namespace WebApp

/-- Permission level enum from src/users.rs (User, Admin). -/
inductive PermissionLevel where
  | User : PermissionLevel
  | Admin : PermissionLevel
deriving DecidableEq, Repr

/-- Conversion From PermissionLevel for i32 in src/users.rs: User is 0, Admin is 1. -/
def permissionLevelToInt : PermissionLevel → Int
  | PermissionLevel.User => 0
  | PermissionLevel.Admin => 1

/-- Conversion From i32 for PermissionLevel in src/users.rs: 0 yields User,
1 yields Admin, and any other value panics with an invalid-permission-level
message.  The panic is modelled as Option.none. -/
def permissionLevelFromInt (n : Int) : Option PermissionLevel :=
  if n = 0 then some PermissionLevel.User
  else if n = 1 then some PermissionLevel.Admin
  else none

/-- One row of the users table: id, username, password hash, profile,
permission_level as stored (an i32 in the schema). -/
structure UserRow where
  id : Int
  username : List Char
  password : List Char
  profile : Option (List Char)
  permission_level : Int
deriving DecidableEq, Repr

/-- One row of the sessions table: the token in its little-endian byte
form, and the owning user id. -/
structure SessionRow where
  session_token : List Nat
  user_id : Int
deriving DecidableEq, Repr

/-- The relational store: the users and sessions tables. -/
structure Database where
  users : List UserRow
  sessions : List SessionRow
deriving DecidableEq, Repr

/-- UTF-8 byte length of a string, the value returned by the Rust method
String::len. -/
def utf8Len (s : List Char) : Nat :=
  (s.map Char.utf8Size).sum

/- Errors from src/errors.rs. -/

/-- Signup error enum from src/errors.rs. -/
inductive SignupError where
  | UsernameExists
  | InvalidUsername
  | PasswordsDoNotMatch
  | InvalidPassword
  | InternalError
deriving DecidableEq, Repr

/-- Login error enum from src/errors.rs. -/
inductive LoginError where
  | UserDoesNotExist
  | WrongPassword
deriving DecidableEq, Repr

/-- The error values the application renders: NotLoggedIn, NotAdmin,
SignupError, LoginError and NoUser from src/errors.rs, gathered into one
type so that the rendering function error_page can be stated once. -/
inductive AppError where
  | notLoggedIn
  | notAdmin
  | signupErr (e : SignupError)
  | loginErr (e : LoginError)
  | noUser (username : List Char)
deriving DecidableEq, Repr

/-- The Display implementation of each error in src/errors.rs. -/
def errorMessage : AppError → List Char
  | AppError.notLoggedIn => ("Not logged in").toList
  | AppError.notAdmin => ("Not an administator").toList
  | AppError.signupErr SignupError.InvalidUsername => ("Invalid username").toList
  | AppError.signupErr SignupError.UsernameExists => ("Username already exists").toList
  | AppError.signupErr SignupError.PasswordsDoNotMatch => ("Passwords do not match").toList
  | AppError.signupErr SignupError.InvalidPassword => ("Invalid Password").toList
  | AppError.signupErr SignupError.InternalError => ("Internal Error").toList
  | AppError.loginErr LoginError.UserDoesNotExist => ("User does not exist").toList
  | AppError.loginErr LoginError.WrongPassword => ("Wrong password").toList
  | AppError.noUser u => ("could not find user '").toList ++ u ++ [Char.ofNat 39]

/-- The ErrorInfo trait implementations in src/errors.rs: the status code
each error type assigns to itself, paired with its display message.
BAD_REQUEST is 400, UNAUTHORIZED is 401, NOT_FOUND is 404,
INTERNAL_SERVER_ERROR is 500. -/
def error_info : AppError → Nat × List Char
  | AppError.notLoggedIn => (401, errorMessage AppError.notLoggedIn)
  | AppError.notAdmin => (401, errorMessage AppError.notAdmin)
  | AppError.signupErr SignupError.InternalError =>
      (500, errorMessage (AppError.signupErr SignupError.InternalError))
  | AppError.signupErr e => (400, errorMessage (AppError.signupErr e))
  | AppError.loginErr LoginError.UserDoesNotExist =>
      (400, errorMessage (AppError.loginErr LoginError.UserDoesNotExist))
  | AppError.loginErr LoginError.WrongPassword =>
      (401, errorMessage (AppError.loginErr LoginError.WrongPassword))
  | AppError.noUser u => (404, errorMessage (AppError.noUser u))

/-- An HTTP response, reduced to the parts the claims mention: status
code and body. -/
structure Response where
  status : Nat
  body : List Char
deriving DecidableEq, Repr

/-- The function error_page from src/utils.rs: builds the response shown
to the caller for an error.  It sets the status to
StatusCode::INTERNAL_SERVER_ERROR (500) unconditionally and formats the
body from the Display message; it never consults error_info. -/
def error_page (err : AppError) : Response :=
  { status := 500, body := ("Err: ").toList ++ errorMessage err }

/- Session tokens, src/auth.rs. -/

/-- Little-endian byte list of a natural number, w bytes wide: the value
of u128::to_le_bytes when w is 16. -/
def leBytes : Nat → Nat → List Nat
  | 0, _ => []
  | w + 1, n => (n % 256) :: leBytes w (n / 256)

/-- SessionToken::into_database_value from src/auth.rs: the token
serialized to its 16 little-endian bytes for storage and lookup. -/
def into_database_value (tok : Nat) : List Nat :=
  leBytes 16 tok

/-- Digit accumulation loop of u128 from_str_radix with radix 10: each
character must be a decimal digit, and the checked multiply and add fail
(returning none, the overflow error) as soon as the accumulated value
would leave the 128-bit range. -/
def parseDigitsLoop : List Char → Nat → Option Nat
  | [], acc => some acc
  | c :: cs, acc =>
    if ('0' ≤ c ∧ c ≤ '9') then
      let acc' := acc * 10 + (c.toNat - 48)
      if acc' < 2 ^ 128 then parseDigitsLoop cs acc' else none
    else
      none

/-- The FromStr implementation backing SessionToken parsing
(str::parse::<u128>): an empty string fails, one leading plus sign is
accepted and stripped, and the remaining characters must be a nonempty
run of decimal digits whose value fits in 128 bits. -/
def u128FromStr : List Char → Option Nat
  | [] => none
  | c :: rest =>
    if c = '+' then (if rest.isEmpty then none else parseDigitsLoop rest 0)
    else parseDigitsLoop (c :: rest) 0

/-- SessionToken::into_cookie_value from src/auth.rs: u128 to_string,
the plain decimal rendering (digits only, no sign, a single zero digit
for zero). -/
def into_cookie_value (tok : Nat) : List Char :=
  if tok = 0 then [Char.ofNat 48]
  else ((Nat.digits 10 tok).map (fun d => Char.ofNat (48 + d))).reverse

/-- Big-endian decimal value of a character string: the value the digit
loop of parseDigitsLoop accumulates, without the overflow check. -/
def valFrom (acc : Nat) (s : List Char) : Nat :=
  s.foldl (fun a c => a * 10 + (c.toNat - 48)) acc

/-- Decimal value of a digit string, most significant digit first. -/
def digitsVal (s : List Char) : Nat :=
  valFrom 0 s

/-- Formalization of the claim's phrase, a valid unsigned 128-bit
decimal integer string, read strictly: nonempty, decimal digits only,
value below 2 to the 128.  This definition follows the specification's
words, for comparison against u128FromStr, which is translated from the
parser the code uses. -/
def spec_valid_u128_decimal (s : List Char) : Bool :=
  (!s.isEmpty) && s.all (fun c => '0' ≤ c && c ≤ '9') && decide (digitsVal s < 2 ^ 128)

/-- A resolved user as held by AuthState: username and decoded
permission level, the User struct of src/auth.rs. -/
structure User where
  username : List Char
  permission_level : PermissionLevel
deriving DecidableEq, Repr

/-- AuthState from src/auth.rs: None when no parseable token was found in
the cookies (anonymous), otherwise the token together with the lazily
filled user cache.  The database handle the Rust struct also carries is
passed explicitly to the operations below. -/
def AuthState : Type := Option (Nat × Option User)

/-- AuthState::logged_in from src/auth.rs: merely whether a parseable
token was present, with no store lookup. -/
def AuthState.logged_in (st : AuthState) : Bool :=
  st.isSome

/-- The join query of AuthState::get_user: select id, username and
permission_level from users joined with sessions on user_id = id where
session_token equals the bound byte value; fetch_optional yields the
first matching row or none. -/
def sessionLookup (db : Database) (tokenBytes : List Nat) : Option (Int × List Char × Int) :=
  (db.sessions.find? (fun s => s.session_token = tokenBytes)).bind fun s =>
    (db.users.find? (fun u => u.id = s.user_id)).map fun u =>
      (u.id, u.username, u.permission_level)

/-- AuthState::get_user from src/auth.rs.  Returns the user (if any), the
auth state after the call, and the number of store lookups the call
performed.  When the cache is empty it runs the join query once; only a
found row is written back to the cache.  Decoding a corrupt stored
permission level panics (the From instance), modelled as Except.error. -/
def AuthState.get_user (db : Database) : AuthState → Except Unit (Option User × AuthState × Nat)
  | none => Except.ok (none, none, 0)
  | some (tok, some u) => Except.ok (some u, some (tok, some u), 0)
  | some (tok, none) =>
    match sessionLookup db (into_database_value tok) with
    | none => Except.ok (none, some (tok, none), 1)
    | some (_, username, pl) =>
      match permissionLevelFromInt pl with
      | none => Except.error ()
      | some p =>
        Except.ok (some { username := username, permission_level := p },
          some (tok, some { username := username, permission_level := p }), 1)

/-- Two successive calls of AuthState::get_user within one request: the
second call starts from the state the first call left behind; the lookup
counts add up. -/
def get_user_twice (db : Database) (st : AuthState) : Except Unit (Option User × AuthState × Nat) :=
  match AuthState.get_user db st with
  | Except.error e => Except.error e
  | Except.ok (_, st1, q1) =>
    match AuthState.get_user db st1 with
    | Except.error e => Except.error e
    | Except.ok (u, st2, q2) => Except.ok (u, st2, q1 + q2)

/-- AuthState::is_admin from src/auth.rs: resolve the user and compare
its permission level with Admin; no user means false. -/
def AuthState.is_admin (db : Database) (st : AuthState) : Except Unit (Bool × AuthState) :=
  match AuthState.get_user db st with
  | Except.error e => Except.error e
  | Except.ok (some u, st1, _) =>
      Except.ok (decide (u.permission_level = PermissionLevel.Admin), st1)
  | Except.ok (none, st1, _) => Except.ok (false, st1)

/-- The auth middleware of src/auth.rs, applied to the cookie value found
under the user_token name (if any): a missing cookie or a failed parse
yields the anonymous state, a parsed token yields the unresolved state
with an empty cache. -/
def authMiddleware (cookieValue : Option (List Char)) : AuthState :=
  match cookieValue with
  | none => none
  | some v => (u128FromStr v).map fun t => (t, none)

/- Account operations, src/auth.rs. -/

/-- The function new_session from src/auth.rs: insert a row binding the
freshly generated token (passed here as a parameter, since the random
source is external) to the user id.  Returns the updated store; the
caller receives the token itself. -/
def new_session (db : Database) (tok : Nat) (user_id : Int) : Database :=
  { db with sessions := db.sessions ++ [{ session_token := into_database_value tok, user_id := user_id }] }

/-- The local function valid_username inside signup in src/auth.rs: the
byte length must lie in the half-open range 1 to 20, and every character
must be a lowercase ASCII letter, an ASCII digit or a hyphen. -/
def valid_username (username : List Char) : Bool :=
  (1 ≤ utf8Len username && utf8Len username < 20) &&
    username.all fun c => (('a' ≤ c && c ≤ 'z') || ('0' ≤ c && c ≤ '9') || c = '-')

/-- Outcome of signup and of the signup route handler: the result (a
session token on success), the store after the call, and how many times
the password hash function ran. -/
structure SignupOutcome where
  result : Except SignupError Nat
  db : Database
  hashes : Nat
deriving Repr

/-- Fresh id assigned by the RETURNING id insert: one past the largest
id in the users table (the serial column of the schema). -/
def freshId (db : Database) : Int :=
  (db.users.map UserRow.id).foldl max 0 + 1

/-- The function signup from src/auth.rs.  hashPw abstracts
Pbkdf2.hash_password with a fresh salt (none models a hashing failure);
tok is the token new_session will generate.  Control flow follows the
source: username validation first, then hashing, then the insert whose
unique-violation branch yields UsernameExists, then session creation.
The inserted row takes the schema defaults for profile and
permission_level (null and 0, the User level, per the data model of the
specification, the schema file not being part of the sources). -/
def signup (hashPw : List Char → Option (List Char)) (db : Database) (tok : Nat)
    (username password : List Char) : SignupOutcome :=
  if !valid_username username then
    { result := Except.error SignupError.InvalidUsername, db := db, hashes := 0 }
  else
    match hashPw password with
    | none => { result := Except.error SignupError.InvalidPassword, db := db, hashes := 1 }
    | some hashed =>
      if db.users.any (fun u => u.username = username) then
        { result := Except.error SignupError.UsernameExists, db := db, hashes := 1 }
      else
        let uid := freshId db
        let db1 := { db with users :=
          db.users ++ [{ id := uid, username := username, password := hashed,
                         profile := none, permission_level := 0 }] }
        { result := Except.ok tok, db := new_session db1 tok uid, hashes := 1 }

/-- The login query of src/auth.rs: select id and password from users
where username matches; fetch_optional yields the first row or none. -/
def userLookup (db : Database) (username : List Char) : Option (Int × List Char) :=
  (db.users.find? (fun u => u.username = username)).map fun u => (u.id, u.password)

/-- The function login from src/auth.rs.  parseHash abstracts
PasswordHash::new (whose unwrap panics on a malformed stored hash,
modelled as Except.error); verify abstracts Pbkdf2.verify_password
applied to the submitted password and the parsed hash.  On success a new
session row is inserted for the token tok and the token is returned;
both failures leave the store untouched. -/
def login (parseHash : List Char → Option (List Char))
    (verify : List Char → List Char → Bool) (db : Database) (tok : Nat)
    (username password : List Char) : Except Unit (Except LoginError Nat × Database) :=
  match userLookup db username with
  | none => Except.ok (Except.error LoginError.UserDoesNotExist, db)
  | some (user_id, hashed_password) =>
    match parseHash hashed_password with
    | none => Except.error ()
    | some parsed =>
      if verify password parsed then
        Except.ok (Except.ok tok, new_session db tok user_id)
      else
        Except.ok (Except.error LoginError.WrongPassword, db)

/-- The function delete_user from src/auth.rs: delete the users row whose
id equals the scalar subquery selecting user_id from sessions for the
state's token.  When no session row matches, the comparison with the
null subquery matches no users row and the delete affects zero rows. -/
def delete_user (db : Database) (tok : Nat) : Database :=
  match db.sessions.find? (fun s => s.session_token = into_database_value tok) with
  | some s => { db with users := db.users.filter (fun u => !(u.id = s.user_id)) }
  | none => db

/-- The free function get_user from src/auth.rs: select username, profile
and permission_level from users where username matches. -/
def get_user_by_name (db : Database) (username : List Char) :
    Option (List Char × Option (List Char) × Int) :=
  (db.users.find? (fun u => u.username = username)).map fun u =>
    (u.username, u.profile, u.permission_level)

/- Handlers, src/main.rs and src/users.rs. -/

/-- The handler post_signup from src/main.rs: reject when the two
password fields differ, then when the password byte length is below 8,
and only then call signup. -/
def post_signup (hashPw : List Char → Option (List Char)) (db : Database) (tok : Nat)
    (username password confirm_password : List Char) : SignupOutcome :=
  if !(password = confirm_password) then
    { result := Except.error SignupError.PasswordsDoNotMatch, db := db, hashes := 0 }
  else if utf8Len password < 8 then
    { result := Except.error SignupError.InvalidPassword, db := db, hashes := 0 }
  else
    signup hashPw db tok username password

/-- The handler post_delete from src/main.rs: when logged_in is false the
NotLoggedIn error page is returned (Except.error); otherwise delete_user
runs on the state's token and the logout response follows, carrying the
store as left by the delete. -/
def post_delete (db : Database) (st : AuthState) : Except AppError Database :=
  match st with
  | none => Except.error AppError.notLoggedIn
  | some (tok, _) => Except.ok (delete_user db tok)

/-- The permission update statement shared by add_admin and remove_admin
in src/users.rs: set permission_level for every users row whose username
matches. -/
def setPermission (db : Database) (username : List Char) (lvl : Int) : Database :=
  { db with users := db.users.map fun u =>
      if u.username = username then { u with permission_level := lvl } else u }

/-- Store effect of the handler add_admin from src/users.rs, given that
the caller passed the is_admin gate: fetch the target row by username and
set its permission level to 1 only when the fetched level is 0. -/
def add_admin (db : Database) (username : List Char) : Database :=
  match get_user_by_name db username with
  | some (_, _, pl) => if pl = 0 then setPermission db username 1 else db
  | none => db

/-- Store effect of the handler remove_admin from src/users.rs, given
that the caller passed the is_admin gate: fetch the target row by
username and set its permission level to 0 only when the fetched level
is 1. -/
def remove_admin (db : Database) (username : List Char) : Database :=
  match get_user_by_name db username with
  | some (_, _, pl) => if pl = 1 then setPermission db username 0 else db
  | none => db

/-- The handler add_admin including its is_admin gate: a caller that is
not an admin gets the NotAdmin error page and the store is untouched. -/
def add_admin_handler (isAdm : Bool) (db : Database) (username : List Char) :
    Except AppError Database :=
  if isAdm then Except.ok (add_admin db username) else Except.error AppError.notAdmin

/-- The handler remove_admin including its is_admin gate. -/
def remove_admin_handler (isAdm : Bool) (db : Database) (username : List Char) :
    Except AppError Database :=
  if isAdm then Except.ok (remove_admin db username) else Except.error AppError.notAdmin

/- Theorems settling the claims. -/

/-- C9: decoding a stored permission level yields User for 0 and Admin
for 1, and for any other value the error branch is taken (the panic,
modelled as none), never a silent default to a valid level. -/
theorem permission_decode_spec :
    permissionLevelFromInt 0 = some PermissionLevel.User ∧
    permissionLevelFromInt 1 = some PermissionLevel.Admin ∧
    ∀ n : Int, n ≠ 0 → n ≠ 1 → permissionLevelFromInt n = none := by
  refine ⟨rfl, rfl, fun n h0 h1 => ?_⟩
  simp [permissionLevelFromInt, h0, h1]

/-- Witness for C9: the corrupt value 2 decodes to the panic branch. -/
theorem permission_decode_spec_witness : permissionLevelFromInt 2 = none :=
  permission_decode_spec.2.2 2 (by decide) (by decide)

/-- C2 (code bug): every error page the application renders carries
status 500, because error_page hard-codes INTERNAL_SERVER_ERROR and
never consults error_info; in particular the invalid-username validation
error, which error_info (and the specification) places in the 400 class,
is rendered with status 500, not a 400-class status. -/
theorem error_page_ignores_error_info :
    (∀ e : AppError, (error_page e).status = 500) ∧
    (error_info (AppError.signupErr SignupError.InvalidUsername)).1 = 400 ∧
    (error_page (AppError.signupErr SignupError.InvalidUsername)).status = 500 ∧
    ¬ (error_page (AppError.signupErr SignupError.InvalidUsername)).status / 100 = 4 :=
  ⟨fun _ => rfl, rfl, rfl, by decide⟩

/-- C10: the logged-in check is purely syntactic, so a parseable token
that matches no session row still counts as logged in; the delete
handler's guard then passes, the delete statement's scalar subquery
matches no users row, and the handler completes without an error leaving
the store unchanged. -/
theorem logged_in_syntactic (db : Database) (tok : Nat) (store : Option User)
    (hmiss : db.sessions.find? (fun s => s.session_token = into_database_value tok) = none) :
    AuthState.logged_in (some (tok, store)) = true ∧
    post_delete db (some (tok, store)) = Except.ok db := by
  refine ⟨rfl, ?_⟩
  unfold post_delete delete_user
  simp [hmiss]

/-- Witness for C10: an empty store and the stale token 0. -/
theorem logged_in_syntactic_witness :
    AuthState.logged_in (some (0, none)) = true ∧
    post_delete { users := [], sessions := [] } (some (0, none)) =
      Except.ok { users := [], sessions := [] } :=
  logged_in_syntactic { users := [], sessions := [] } 0 none rfl

/-- C4: a login for an unknown username fails with the user-does-not-
exist error, a login whose password fails verification fails with the
wrong-password error, and in every failure case the store is returned
unchanged, so no session row is created and no token is issued. -/
theorem login_failures_spec (parseHash : List Char → Option (List Char))
    (verify : List Char → List Char → Bool) (db : Database) (tok : Nat)
    (username password : List Char) :
    (userLookup db username = none →
      login parseHash verify db tok username password =
        Except.ok (Except.error LoginError.UserDoesNotExist, db)) ∧
    (∀ uid hp ph, userLookup db username = some (uid, hp) → parseHash hp = some ph →
      verify password ph = false →
      login parseHash verify db tok username password =
        Except.ok (Except.error LoginError.WrongPassword, db)) ∧
    (∀ e r db1, login parseHash verify db tok username password = Except.ok (r, db1) →
      r = Except.error e → db1 = db) := by
  refine ⟨?_, ?_, ?_⟩
  · intro h
    unfold login
    simp [h]
  · intro uid hp ph h1 h2 h3
    unfold login
    simp [h1, h2, h3]
  · intro e r db1 hok her
    subst her
    unfold login at hok
    split at hok
    · simp at hok
      exact hok.2.symm
    · split at hok
      · simp at hok
      · split at hok
        · simp at hok
        · simp at hok
          exact hok.2.symm

/-- Witness for C4: logging in against an empty store fails with the
user-does-not-exist error and leaves the store unchanged. -/
theorem login_failures_spec_witness :
    login (fun _ => none) (fun _ _ => false) { users := [], sessions := [] } 0
        [Char.ofNat 97] [] =
      Except.ok (Except.error LoginError.UserDoesNotExist, { users := [], sessions := [] }) :=
  (login_failures_spec (fun _ => none) (fun _ _ => false)
    { users := [], sessions := [] } 0 [Char.ofNat 97] []).1 rfl

/-- Counterexample for C8: the claim reads the length bound as a count
of characters, but the handler compares the UTF-8 byte length.  This
seven-character password (one two-byte character and six one-byte
characters, eight bytes in all) passes the length check, and signup then
runs the password hash once instead of rejecting before hashing. -/
theorem post_signup_multibyte_cex :
    (post_signup (fun s => some s) { users := [], sessions := [] } 0 [Char.ofNat 98]
        ['é', 'a', 'a', 'a', 'a', 'a', 'a'] ['é', 'a', 'a', 'a', 'a', 'a', 'a']).hashes = 1 ∧
    (post_signup (fun s => some s) { users := [], sessions := [] } 0 [Char.ofNat 98]
        ['é', 'a', 'a', 'a', 'a', 'a', 'a'] ['é', 'a', 'a', 'a', 'a', 'a', 'a']).result =
      Except.ok 0 ∧
    (['é', 'a', 'a', 'a', 'a', 'a', 'a'] : List Char).length = 7 ∧ 7 < 8 :=
  ⟨rfl, rfl, rfl, by decide⟩

/-- C8 (amended): differing password fields are rejected with the
passwords-do-not-match error, and a password whose UTF-8 byte length is
below 8 is rejected with the invalid-password error; in both cases the
handler returns before any hashing or store access, with a hash count of
zero and the store unchanged. -/
theorem post_signup_rejects_spec (hashPw : List Char → Option (List Char))
    (db : Database) (tok : Nat) (username password confirm : List Char) :
    (password ≠ confirm →
      post_signup hashPw db tok username password confirm =
        { result := Except.error SignupError.PasswordsDoNotMatch, db := db, hashes := 0 }) ∧
    (utf8Len password < 8 →
      post_signup hashPw db tok username password password =
        { result := Except.error SignupError.InvalidPassword, db := db, hashes := 0 }) := by
  constructor
  · intro h
    unfold post_signup
    simp [h]
  · intro h
    unfold post_signup
    simp [h]

/-- Witness for C8: a one-byte password equal to its confirmation is
rejected with the invalid-password error before hashing. -/
theorem post_signup_rejects_spec_witness :
    post_signup (fun s => some s) { users := [], sessions := [] } 0 [Char.ofNat 98]
        [Char.ofNat 97] [Char.ofNat 97] =
      { result := Except.error SignupError.InvalidPassword,
        db := { users := [], sessions := [] }, hashes := 0 } :=
  (post_signup_rejects_spec (fun s => some s) { users := [], sessions := [] } 0
    [Char.ofNat 98] [Char.ofNat 97] [Char.ofNat 97]).2 (by decide)

/-- Finding a row by username after the permission update of
setPermission: the found row is the found row of the original table with
its permission level overwritten (the update touches exactly the rows
the find predicate selects). -/
lemma find?_setPermission (l : List UserRow) (u : List Char) (lvl : Int) :
    (l.map fun r => if r.username = u then { r with permission_level := lvl } else r).find?
        (fun r => r.username = u) =
      (l.find? (fun r => r.username = u)).map
        (fun r => { r with permission_level := lvl }) := by
  induction l with
  | nil => rfl
  | cons r t ih =>
    by_cases hr : r.username = u
    · simp [List.find?_cons, hr]
    · simp [List.find?_cons, hr, ih]

/-- Fetching the target row after setPermission, as get_user_by_name
sees it: same username and profile, overwritten level. -/
lemma get_user_by_name_setPermission (db : Database) (u : List Char) (lvl : Int) :
    get_user_by_name (setPermission db u lvl) u =
      (get_user_by_name db u).map fun t => (t.1, t.2.1, lvl) := by
  unfold get_user_by_name setPermission
  rw [find?_setPermission]
  cases db.users.find? (fun r => r.username = u) <;> rfl

/-- C5: promoting changes the target only when its fetched permission
level is 0 (User) and demoting only when it is 1 (Admin); a missing
target changes nothing; and promoting twice, or demoting twice, leaves
the same store as doing it once. -/
theorem promote_demote_idempotent (db : Database) (u : List Char) :
    (add_admin (add_admin db u) u = add_admin db u) ∧
    (remove_admin (remove_admin db u) u = remove_admin db u) ∧
    (∀ n pr pl, get_user_by_name db u = some (n, pr, pl) → pl ≠ 0 → add_admin db u = db) ∧
    (∀ n pr pl, get_user_by_name db u = some (n, pr, pl) → pl ≠ 1 → remove_admin db u = db) ∧
    (get_user_by_name db u = none → add_admin db u = db ∧ remove_admin db u = db) := by
  refine ⟨?_, ?_, ?_, ?_, ?_⟩
  · unfold add_admin
    rcases hfind : get_user_by_name db u with _ | ⟨n, pr, pl⟩
    · simp [hfind]
    · by_cases hpl : pl = 0
      · have h2 := get_user_by_name_setPermission db u 1
        rw [hfind] at h2
        simp [hfind, hpl, h2]
      · simp [hfind, hpl]
  · unfold remove_admin
    rcases hfind : get_user_by_name db u with _ | ⟨n, pr, pl⟩
    · simp [hfind]
    · by_cases hpl : pl = 1
      · have h2 := get_user_by_name_setPermission db u 0
        rw [hfind] at h2
        simp [hfind, hpl, h2]
      · simp [hfind, hpl]
  · intro n pr pl hfind hpl
    unfold add_admin
    simp [hfind, hpl]
  · intro n pr pl hfind hpl
    unfold remove_admin
    simp [hfind, hpl]
  · intro hfind
    constructor
    · unfold add_admin
      simp [hfind]
    · unfold remove_admin
      simp [hfind]

/-- Witness for C5: an already-admin target (level 1) is left unchanged
by promote. -/
theorem promote_demote_idempotent_witness :
    add_admin
        { users := [{ id := 1, username := [Char.ofNat 98], password := [],
                      profile := none, permission_level := 1 }], sessions := [] }
        [Char.ofNat 98] =
      { users := [{ id := 1, username := [Char.ofNat 98], password := [],
                    profile := none, permission_level := 1 }], sessions := [] } :=
  (promote_demote_idempotent _ _).2.2.1 [Char.ofNat 98] none 1 rfl (by decide)

/-- Unfolding of AuthState.get_user on a fresh request state (token
present, cache empty). -/
lemma get_user_fresh (db : Database) (tok : Nat) :
    AuthState.get_user db (some (tok, none)) =
      match sessionLookup db (into_database_value tok) with
      | none => Except.ok (none, some (tok, none), 1)
      | some (_, username, pl) =>
        match permissionLevelFromInt pl with
        | none => Except.error ()
        | some p =>
          Except.ok (some { username := username, permission_level := p },
            some (tok, some { username := username, permission_level := p }), 1) := rfl

/-- Counterexample for C1: with an empty store (so the token matches no
session row) the first call caches nothing and the second call queries
again, two store lookups in all, not one. -/
theorem get_user_miss_requeried_cex :
    get_user_twice { users := [], sessions := [] } (some (0, none)) =
      Except.ok (none, some (0, none), 2) ∧ (2 : Nat) ≠ 1 :=
  ⟨rfl, by decide⟩

/-- C1 (amended): within one request, when the first get-user call finds
a matching session row the result is cached and the second call performs
no further lookup (one lookup in all); when the first call finds no row,
nothing is cached and the second call performs another lookup (two in
all). -/
theorem get_user_cache_amended (db : Database) (tok : Nat) :
    (∀ u st1 q, AuthState.get_user db (some (tok, none)) = Except.ok (some u, st1, q) →
      q = 1 ∧ AuthState.get_user db st1 = Except.ok (some u, st1, 0) ∧
      get_user_twice db (some (tok, none)) = Except.ok (some u, st1, 1)) ∧
    (∀ st1 q, AuthState.get_user db (some (tok, none)) = Except.ok (none, st1, q) →
      q = 1 ∧ st1 = some (tok, none) ∧
      get_user_twice db (some (tok, none)) = Except.ok (none, some (tok, none), 2)) := by
  constructor
  · intro u st1 q h
    rw [get_user_fresh] at h
    rcases hsl : sessionLookup db (into_database_value tok) with _ | ⟨i, un, pl⟩ <;>
      rw [hsl] at h
    · simp at h
    · rcases hpl : permissionLevelFromInt pl with _ | p <;> simp only [hpl] at h
      · simp at h
      · simp at h
        obtain ⟨h1, h2, h3⟩ := h
        subst h1
        subst h2
        subst h3
        refine ⟨rfl, rfl, ?_⟩
        unfold get_user_twice
        simp only [get_user_fresh, hsl, hpl]
        rfl
  · intro st1 q h
    rw [get_user_fresh] at h
    rcases hsl : sessionLookup db (into_database_value tok) with _ | ⟨i, un, pl⟩ <;>
      rw [hsl] at h
    · simp at h
      obtain ⟨h1, h2⟩ := h
      subst h1
      subst h2
      refine ⟨rfl, rfl, ?_⟩
      unfold get_user_twice
      simp only [get_user_fresh, hsl]
    · rcases hpl : permissionLevelFromInt pl with _ | p <;> simp only [hpl] at h <;> simp at h

/-- Witness for C1: a store holding a session row for token 7 bound to a
user row resolves on the first lookup and the second call is free. -/
theorem get_user_cache_amended_witness :
    (1 : Nat) = 1 ∧
    AuthState.get_user
        { users := [{ id := 1, username := [Char.ofNat 97], password := [],
                      profile := none, permission_level := 0 }],
          sessions := [{ session_token := into_database_value 7, user_id := 1 }] }
        (some (7, some { username := [Char.ofNat 97],
                         permission_level := PermissionLevel.User })) =
      Except.ok (some { username := [Char.ofNat 97], permission_level := PermissionLevel.User },
        some (7, some { username := [Char.ofNat 97], permission_level := PermissionLevel.User }),
        0) ∧
    get_user_twice
        { users := [{ id := 1, username := [Char.ofNat 97], password := [],
                      profile := none, permission_level := 0 }],
          sessions := [{ session_token := into_database_value 7, user_id := 1 }] }
        (some (7, none)) =
      Except.ok (some { username := [Char.ofNat 97], permission_level := PermissionLevel.User },
        some (7, some { username := [Char.ofNat 97], permission_level := PermissionLevel.User }),
        1) :=
  (get_user_cache_amended
      { users := [{ id := 1, username := [Char.ofNat 97], password := [],
                    profile := none, permission_level := 0 }],
        sessions := [{ session_token := into_database_value 7, user_id := 1 }] } 7).1
    { username := [Char.ofNat 97], permission_level := PermissionLevel.User }
    (some (7, some { username := [Char.ofNat 97], permission_level := PermissionLevel.User }))
    1 rfl

/-- C6: the is-admin check is true exactly when the auth state resolves
to a user whose permission level is Admin; the anonymous state and a
token matching no session row both resolve to no user and so yield
false. -/
theorem is_admin_spec (db : Database) (st : AuthState) (b : Bool) (st1 : AuthState)
    (h : AuthState.is_admin db st = Except.ok (b, st1)) :
    b = true ↔ ∃ u st2 q, AuthState.get_user db st = Except.ok (some u, st2, q) ∧
      u.permission_level = PermissionLevel.Admin := by
  unfold AuthState.is_admin at h
  split at h
  · simp at h
  · next u st2 q heq =>
    simp at h
    obtain ⟨hb, hst⟩ := h
    constructor
    · intro hbt
      refine ⟨u, st2, q, heq, ?_⟩
      rw [← hb] at hbt
      exact of_decide_eq_true hbt
    · rintro ⟨u2, st3, q2, hgu, hadm⟩
      rw [heq] at hgu
      simp at hgu
      obtain ⟨hu, -, -⟩ := hgu
      rw [← hb]
      exact decide_eq_true (hu ▸ hadm)
  · next st2 heq =>
    simp at h
    obtain ⟨hb, hst⟩ := h
    constructor
    · intro hbt
      rw [hb] at hbt
      exact Bool.noConfusion hbt
    · rintro ⟨u2, st3, q2, hgu, hadm⟩
      rw [heq] at hgu
      simp at hgu

/-- Witness for C6: a resolved admin session makes is_admin true. -/
theorem is_admin_spec_witness :
    ∃ u st2 q,
      AuthState.get_user
          { users := [{ id := 1, username := [Char.ofNat 98], password := [],
                        profile := none, permission_level := 1 }],
            sessions := [{ session_token := into_database_value 5, user_id := 1 }] }
          (some (5, none)) =
        Except.ok (some u, st2, q) ∧ u.permission_level = PermissionLevel.Admin :=
  (is_admin_spec
      { users := [{ id := 1, username := [Char.ofNat 98], password := [],
                    profile := none, permission_level := 1 }],
        sessions := [{ session_token := into_database_value 5, user_id := 1 }] }
      (some (5, none)) true
      (some (5, some { username := [Char.ofNat 98],
                       permission_level := PermissionLevel.Admin }))
      rfl).mp rfl

/-- A character no greater than z (code point 122) encodes to a single
UTF-8 byte. -/
lemma utf8Size_of_le_z (c : Char) (h : c ≤ 'z') : c.utf8Size = 1 := by
  unfold Char.utf8Size
  have hv : c.val ≤ UInt32.ofNatCore 127 Char.utf8Size.proof_1 := by
    rw [Char.le_def] at h
    rw [UInt32.le_def, BitVec.le_def] at h ⊢
    exact le_trans h (by decide)
  simp [hv]
  intro hlt
  rw [UInt32.lt_def, BitVec.lt_def] at hlt
  rw [UInt32.le_def, BitVec.le_def] at hv
  have e1 : (UInt32.ofNatCore 127 Char.utf8Size.proof_1).toBitVec.toNat = 127 := by decide
  have e2 : ((127 : UInt32)).toBitVec.toNat = 127 := by decide
  omega

/-- Every character the username charset admits is one UTF-8 byte. -/
lemma usernameChar_utf8Size (c : Char)
    (h : ('a' ≤ c ∧ c ≤ 'z') ∨ ('0' ≤ c ∧ c ≤ '9') ∨ c = '-') : c.utf8Size = 1 := by
  rcases h with ⟨-, h2⟩ | ⟨-, h2⟩ | h2
  · exact utf8Size_of_le_z c h2
  · exact utf8Size_of_le_z c (le_trans h2 (by decide))
  · subst h2
    decide

/-- When every character is a single UTF-8 byte, the byte length equals
the character count. -/
lemma utf8Len_eq_length (s : List Char) (h : ∀ c ∈ s, c.utf8Size = 1) :
    utf8Len s = s.length := by
  induction s with
  | nil => rfl
  | cons c t ih =>
    have hc := h c (by simp)
    have ht := ih fun d hd => h d (by simp [hd])
    unfold utf8Len at ht ⊢
    simp [hc, ht]
    omega

/-- The byte-length test of valid_username coincides with the character
count test of the specification, because the admitted charset is pure
ASCII: valid_username holds exactly when the username has 1 to 19
characters, each a lowercase letter, a digit or a hyphen. -/
lemma valid_username_iff (u : List Char) :
    valid_username u = true ↔
      (1 ≤ u.length ∧ u.length ≤ 19 ∧
        ∀ c ∈ u, ('a' ≤ c ∧ c ≤ 'z') ∨ ('0' ≤ c ∧ c ≤ '9') ∨ c = '-') := by
  unfold valid_username
  simp only [Bool.and_eq_true, Bool.or_eq_true, List.all_eq_true, decide_eq_true_iff,
    or_assoc]
  constructor
  · rintro ⟨⟨h1, h2⟩, h3⟩
    have hlen : utf8Len u = u.length :=
      utf8Len_eq_length u fun c hc => usernameChar_utf8Size c (h3 c hc)
    rw [hlen] at h1 h2
    exact ⟨h1, by omega, h3⟩
  · rintro ⟨h1, h2, h3⟩
    have hlen : utf8Len u = u.length :=
      utf8Len_eq_length u fun c hc => usernameChar_utf8Size c (h3 c hc)
    rw [hlen]
    exact ⟨⟨h1, by omega⟩, h3⟩

/-- C3: signup proceeds past username validation exactly when the
username has between 1 and 19 characters, all lowercase letters, digits
or hyphens; an invalid username is answered with the invalid-username
error immediately, with no hashing and no store access. -/
theorem signup_username_validation (hashPw : List Char → Option (List Char))
    (db : Database) (tok : Nat) (username password : List Char) :
    ((signup hashPw db tok username password).result ≠
        Except.error SignupError.InvalidUsername ↔
      (1 ≤ username.length ∧ username.length ≤ 19 ∧
        ∀ c ∈ username, ('a' ≤ c ∧ c ≤ 'z') ∨ ('0' ≤ c ∧ c ≤ '9') ∨ c = '-')) ∧
    (valid_username username = false →
      signup hashPw db tok username password =
        { result := Except.error SignupError.InvalidUsername, db := db, hashes := 0 }) := by
  constructor
  · rw [← valid_username_iff]
    constructor
    · intro hne
      by_cases hv : valid_username username = true
      · exact hv
      · exfalso
        apply hne
        unfold signup
        simp [Bool.not_eq_true _ ▸ hv]
    · intro hv
      unfold signup
      simp only [hv, Bool.not_true, Bool.false_eq_true, if_false]
      rcases hhw : hashPw password with _ | hashed
      · simp [hhw]
      · simp only [hhw]
        by_cases hex : db.users.any (fun r => r.username = username) = true
        · simp [hex]
        · simp [hex]
  · intro hv
    unfold signup
    simp [hv]

/-- Witness for C3: a username with an uppercase letter is rejected with
no hashing and no store change. -/
theorem signup_username_validation_witness :
    signup (fun s => some s) { users := [], sessions := [] } 0 [Char.ofNat 65]
        [Char.ofNat 97] =
      { result := Except.error SignupError.InvalidUsername,
        db := { users := [], sessions := [] }, hashes := 0 } :=
  (signup_username_validation (fun s => some s) { users := [], sessions := [] } 0
    [Char.ofNat 65] [Char.ofNat 97]).2 (by decide)

/-- The digit-loop accumulator splits into the contribution of the
starting accumulator and the value of the digits themselves. -/
lemma valFrom_acc (s : List Char) : ∀ acc,
    valFrom acc s = acc * 10 ^ s.length + valFrom 0 s := by
  induction s with
  | nil =>
    intro acc
    simp [valFrom]
  | cons c t ih =>
    intro acc
    have h1 : valFrom acc (c :: t) = valFrom (acc * 10 + (c.toNat - 48)) t := rfl
    have h0 : valFrom 0 (c :: t) = valFrom (0 * 10 + (c.toNat - 48)) t := rfl
    rw [h1, ih (acc * 10 + (c.toNat - 48)), h0, ih (0 * 10 + (c.toNat - 48))]
    simp only [List.length_cons, pow_succ]
    ring

/-- Soundness of the digit loop: a successful parse means every consumed
character was a digit, the result is the accumulated value, and (when at
least one digit was consumed) the result passed the 128-bit check. -/
lemma parseDigitsLoop_some (s : List Char) : ∀ acc v, parseDigitsLoop s acc = some v →
    (∀ c ∈ s, '0' ≤ c ∧ c ≤ '9') ∧ v = valFrom acc s ∧ (s ≠ [] → v < 2 ^ 128) := by
  induction s with
  | nil =>
    intro acc v h
    simp [parseDigitsLoop] at h
    subst h
    exact ⟨by simp, rfl, fun hne => absurd rfl hne⟩
  | cons c t ih =>
    intro acc v h
    unfold parseDigitsLoop at h
    by_cases hd : ('0' ≤ c ∧ c ≤ '9')
    · rw [if_pos hd] at h
      have h2 : (if acc * 10 + (c.toNat - 48) < 2 ^ 128 then
          parseDigitsLoop t (acc * 10 + (c.toNat - 48)) else none) = some v := h
      by_cases hb : acc * 10 + (c.toNat - 48) < 2 ^ 128
      · rw [if_pos hb] at h2
        obtain ⟨hd2, hv, hbd⟩ := ih (acc * 10 + (c.toNat - 48)) v h2
        refine ⟨?_, hv, fun _ => ?_⟩
        · intro x hx
          rcases List.mem_cons.mp hx with h1 | h1
          · exact h1 ▸ hd
          · exact hd2 x h1
        · rcases eq_or_ne t [] with ht | ht
          · subst ht
            rw [hv]
            exact hb
          · exact hbd ht
      · rw [if_neg hb] at h2
        exact Option.noConfusion h2
    · rw [if_neg hd] at h
      exact Option.noConfusion h

/-- Completeness of the digit loop: on an all-digit string whose value
passes the 128-bit bound, the loop succeeds with the accumulated value
(every intermediate accumulator is bounded by the final value). -/
lemma parseDigitsLoop_complete (s : List Char) : ∀ acc, (∀ c ∈ s, '0' ≤ c ∧ c ≤ '9') →
    valFrom acc s < 2 ^ 128 → parseDigitsLoop s acc = some (valFrom acc s) := by
  induction s with
  | nil =>
    intro acc _ _
    rfl
  | cons c t ih =>
    intro acc hd hb
    have hdc := hd c (by simp)
    have h1 : valFrom acc (c :: t) = valFrom (acc * 10 + (c.toNat - 48)) t := rfl
    have hacc : acc * 10 + (c.toNat - 48) ≤ valFrom acc (c :: t) := by
      rw [h1, valFrom_acc t]
      have hp : 1 ≤ 10 ^ t.length := Nat.one_le_pow _ _ (by norm_num)
      have h2 : (acc * 10 + (c.toNat - 48)) * 1 ≤
          (acc * 10 + (c.toNat - 48)) * 10 ^ t.length :=
        Nat.mul_le_mul_left _ hp
      omega
    have hb' : acc * 10 + (c.toNat - 48) < 2 ^ 128 := lt_of_le_of_lt hacc hb
    unfold parseDigitsLoop
    rw [if_pos hdc]
    show (if acc * 10 + (c.toNat - 48) < 2 ^ 128 then
        parseDigitsLoop t (acc * 10 + (c.toNat - 48)) else none) =
      some (valFrom acc (c :: t))
    rw [if_pos hb', h1]
    exact ih _ (fun x hx => hd x (by simp [hx])) (h1 ▸ hb)

/-- The character of a decimal digit: bounds and code point. -/
lemma digit_char_spec (d : Nat) (hd : d < 10) :
    '0' ≤ Char.ofNat (48 + d) ∧ Char.ofNat (48 + d) ≤ '9' ∧
      (Char.ofNat (48 + d)).toNat = 48 + d := by
  interval_cases d <;> exact ⟨by decide, by decide, by decide⟩

/-- Reading digit characters accumulates the same value as reading the
digits themselves. -/
lemma valFrom_map_digits : ∀ (ds : List Nat), (∀ d ∈ ds, d < 10) → ∀ acc,
    valFrom acc (ds.map fun d => Char.ofNat (48 + d)) =
      ds.foldl (fun a d => a * 10 + d) acc := by
  intro ds
  induction ds with
  | nil =>
    intro _ acc
    rfl
  | cons d t ih =>
    intro hds acc
    have h3 := (digit_char_spec d (hds d (by simp))).2.2
    have h1 : valFrom acc ((d :: t).map fun d => Char.ofNat (48 + d)) =
        valFrom (acc * 10 + ((Char.ofNat (48 + d)).toNat - 48))
          (t.map fun d => Char.ofNat (48 + d)) := rfl
    rw [h1, h3]
    have h4 : 48 + d - 48 = d := by omega
    rw [h4, ih (fun x hx => hds x (by simp [hx])) (acc * 10 + d)]
    rfl

/-- Folding most-significant-first over reversed little-endian digits
computes the number the digits denote. -/
lemma foldl_reverse_ofDigits (ds : List Nat) : ∀ acc,
    ds.reverse.foldl (fun a d => a * 10 + d) acc =
      acc * 10 ^ ds.length + Nat.ofDigits 10 ds := by
  induction ds with
  | nil =>
    intro acc
    simp [Nat.ofDigits_nil]
  | cons d t ih =>
    intro acc
    rw [List.reverse_cons, List.foldl_append]
    simp only [List.foldl_cons, List.foldl_nil]
    rw [ih acc, Nat.ofDigits_cons]
    simp only [List.length_cons, pow_succ]
    ring

/-- Unfolding of the token parser on a nonempty string. -/
lemma u128FromStr_cons (c : Char) (rest : List Char) :
    u128FromStr (c :: rest) =
      if c = '+' then (if rest.isEmpty then none else parseDigitsLoop rest 0)
      else parseDigitsLoop (c :: rest) 0 := rfl

/-- The session-token parser accepts every nonempty all-digit string
whose value fits in 128 bits, returning that value. -/
lemma u128FromStr_digit_string (s : List Char) (hne : s ≠ [])
    (hd : ∀ c ∈ s, '0' ≤ c ∧ c ≤ '9') (hb : digitsVal s < 2 ^ 128) :
    u128FromStr s = some (digitsVal s) := by
  cases s with
  | nil => exact absurd rfl hne
  | cons c t =>
    have hc := hd c (by simp)
    have hcp : ¬ c = '+' := by
      intro hcc
      rw [hcc] at hc
      exact absurd hc.1 (by decide)
    rw [u128FromStr_cons, if_neg hcp]
    exact parseDigitsLoop_complete (c :: t) 0 hd hb

/-- Round trip: the decimal cookie rendering of a 128-bit token parses
back to the token. -/
lemma into_cookie_value_roundtrip (tok : Nat) (htok : tok < 2 ^ 128) :
    u128FromStr (into_cookie_value tok) = some tok := by
  by_cases h0 : tok = 0
  · subst h0
    decide
  · have hds : ∀ d ∈ Nat.digits 10 tok, d < 10 :=
      fun d hdm => Nat.digits_lt_base (by norm_num) hdm
    have hne : Nat.digits 10 tok ≠ [] := Nat.digits_ne_nil_iff_ne_zero.mpr h0
    have hicv : into_cookie_value tok =
        (Nat.digits 10 tok).reverse.map fun d => Char.ofNat (48 + d) := by
      unfold into_cookie_value
      rw [if_neg h0, List.map_reverse]
    have hval : digitsVal (into_cookie_value tok) = tok := by
      rw [hicv]
      unfold digitsVal
      rw [valFrom_map_digits (Nat.digits 10 tok).reverse
        (fun d hdm => hds d (List.mem_reverse.mp hdm)) 0]
      rw [foldl_reverse_ofDigits (Nat.digits 10 tok) 0]
      simp [Nat.ofDigits_digits]
    have hall : ∀ c ∈ into_cookie_value tok, '0' ≤ c ∧ c ≤ '9' := by
      rw [hicv]
      intro c hc
      simp only [List.mem_map, List.mem_reverse] at hc
      obtain ⟨d, hdm, hdc⟩ := hc
      have := digit_char_spec d (hds d hdm)
      exact hdc ▸ ⟨this.1, this.2.1⟩
    have hne2 : into_cookie_value tok ≠ [] := by
      rw [hicv]
      simp [hne]
    have hbb : digitsVal (into_cookie_value tok) < 2 ^ 128 := by
      rw [hval]
      exact htok
    rw [u128FromStr_digit_string (into_cookie_value tok) hne2 hall hbb, hval]

/-- Counterexample for C7: a string with a leading plus sign parses
successfully (the Rust unsigned parser strips one leading plus), yet it
is not a string of decimal digits, so parsing does not fail exactly on
the non-decimal strings. -/
theorem u128_parse_plus_cex :
    u128FromStr ['+', '0'] = some 0 ∧ spec_valid_u128_decimal ['+', '0'] = false := by
  exact ⟨by decide, by decide⟩

/-- C7 (amended): rendering a 128-bit token to its decimal cookie string
and parsing it back returns the same token; parsing a cookie string
fails exactly when the string is not an optional leading plus sign
followed by a nonempty run of decimal digits whose value fits in 128
bits; and a failed parse makes the middleware treat the request as not
logged in (anonymous state). -/
theorem token_cookie_roundtrip_amended :
    (∀ tok : Nat, tok < 2 ^ 128 → u128FromStr (into_cookie_value tok) = some tok) ∧
    (∀ s : List Char, u128FromStr s = none ↔
      ¬ ∃ t, (s = t ∨ s = '+' :: t) ∧ t ≠ [] ∧ (∀ c ∈ t, '0' ≤ c ∧ c ≤ '9') ∧
        digitsVal t < 2 ^ 128) ∧
    (∀ v : List Char, u128FromStr v = none → authMiddleware (some v) = none) := by
  refine ⟨into_cookie_value_roundtrip, ?_, ?_⟩
  · intro s
    cases s with
    | nil =>
      constructor
      · rintro - ⟨t, h1 | h1, h2, -, -⟩
        · exact h2 h1.symm
        · exact List.noConfusion h1
      · intro _
        rfl
    | cons c cs =>
      by_cases hc : c = '+'
      · subst hc
        cases cs with
        | nil =>
          constructor
          · rintro - ⟨t, h1 | h1, h2, h3, -⟩
            · have hm : ('+' : Char) ∈ t := h1 ▸ (by simp)
              exact absurd (h3 '+' hm).1 (by decide)
            · injection h1 with h1a h1b
              exact h2 h1b.symm
          · intro _
            rfl
        | cons c2 cs2 =>
          have hsh : u128FromStr ('+' :: c2 :: cs2) = parseDigitsLoop (c2 :: cs2) 0 := rfl
          rw [hsh]
          rcases hl : parseDigitsLoop (c2 :: cs2) 0 with _ | v
          · simp only [true_iff]
            rintro ⟨t, h1 | h1, h2, h3, h4⟩
            · have hm : ('+' : Char) ∈ t := h1 ▸ (by simp)
              exact absurd (h3 '+' hm).1 (by decide)
            · have ht : c2 :: cs2 = t := by
                rw [List.cons.injEq] at h1
                exact h1.2
              subst ht
              rw [parseDigitsLoop_complete (c2 :: cs2) 0 h3 h4] at hl
              exact Option.noConfusion hl
          · obtain ⟨h3, hv, hbd⟩ := parseDigitsLoop_some (c2 :: cs2) 0 v hl
            have hvb := hbd (by simp)
            rw [hv] at hvb
            exact iff_of_false (fun hh => Option.noConfusion hh)
              (not_not_intro ⟨c2 :: cs2, Or.inr rfl, by simp, h3, hvb⟩)
      · rw [u128FromStr_cons, if_neg hc]
        rcases hl : parseDigitsLoop (c :: cs) 0 with _ | v
        · simp only [true_iff]
          rintro ⟨t, h1 | h1, h2, h3, h4⟩
          · subst h1
            rw [parseDigitsLoop_complete (c :: cs) 0 h3 h4] at hl
            exact Option.noConfusion hl
          · apply hc
            rw [List.cons.injEq] at h1
            exact h1.1
        · obtain ⟨h3, hv, hbd⟩ := parseDigitsLoop_some (c :: cs) 0 v hl
          have hvb := hbd (by simp)
          rw [hv] at hvb
          exact iff_of_false (fun hh => Option.noConfusion hh)
            (not_not_intro ⟨c :: cs, Or.inl rfl, by simp, h3, hvb⟩)
  · intro v h
    unfold authMiddleware
    simp [h]

/-- Witness for C7: the token 12 survives the cookie round trip. -/
theorem token_cookie_roundtrip_amended_witness :
    u128FromStr (into_cookie_value 12) = some 12 :=
  token_cookie_roundtrip_amended.1 12 (by norm_num)

end WebApp
